import Mathlib

/-!
Shallow embedding of the content-manager CRUD application.

The embedding follows the source files:
* `src/types/content.ts` — the `Content` record and the form data;
* the `ContentForm` component — the `validate` routine, the category
  options offered by the select control, and the trimming performed by
  `handleSubmit` before a form is submitted;
* `src/pages/Index.tsx` — the seeded collection `initialContents` and the
  three mutation handlers `handleCreate`, `handleUpdate`, `handleDelete`;
* `src/lib/auth.ts` — the SHA-256 access gate (`hashCode`,
  `verifyAccessCode`, `setAuthenticated`, `isAuthenticated`, `logout`).

Timestamps (`Date` values, `Date.now()`) are modelled as natural numbers
of milliseconds since the epoch; each handler takes the current time as an
explicit parameter `now`.  JavaScript string values are modelled as Lean
`String`s; `String.prototype.trim` is modelled by `trim` below over the
JavaScript whitespace set.
-/

namespace ContentManager

/-- Whitespace as removed by JavaScript trim: tab, LF, VT, FF, CR,
space, NBSP, the Unicode space separators, LS, PS, NNBSP, MMSP,
ideographic space and the BOM. -/
def isJsSpace (c : Char) : Bool :=
  let n := c.toNat
  n == 9 || n == 10 || n == 11 || n == 12 || n == 13 || n == 32 ||
  n == 160 || n == 5760 ||
  n == 8192 || n == 8193 || n == 8194 || n == 8195 || n == 8196 ||
  n == 8197 || n == 8198 || n == 8199 || n == 8200 || n == 8201 ||
  n == 8202 || n == 8232 || n == 8233 || n == 8239 || n == 8287 ||
  n == 12288 || n == 65279

/-- Trim on character lists: drop leading whitespace, then drop trailing
whitespace (by reversing, dropping, reversing back). -/
def trimChars (l : List Char) : List Char :=
  ((l.dropWhile isJsSpace).reverse.dropWhile isJsSpace).reverse

/-- Model of JavaScript String.prototype.trim. -/
def trim (s : String) : String :=
  String.mk (trimChars s.data)

/-- The Content entity of src/types/content.ts: id, title, description,
category, and the two timestamps (modelled in epoch milliseconds). -/
structure Content where
  id : String
  title : String
  description : String
  category : String
  createdAt : Nat
  updatedAt : Nat
  deriving DecidableEq, Repr

/-- The form fields of src/types/content.ts (ContentFormData): the data a
form submits, without id and timestamps. -/
structure ContentFormData where
  title : String
  description : String
  category : String
  deriving DecidableEq, Repr

/-- The seeded example records of src/pages/Index.tsx (initialContents).
new Date of 2024-01-15 and 2024-01-16 are 1705276800000 and 1705363200000
epoch milliseconds. -/
def initialContents : List Content :=
  [{ id := "1",
     title := "Introduzione al CRUD",
     description := "CRUD è l'acronimo di Create, Read, Update, Delete. Sono le quattro operazioni fondamentali per gestire dati persistenti in qualsiasi applicazione.",
     category := "tutorial",
     createdAt := 1705276800000,
     updatedAt := 1705276800000 },
   { id := "2",
     title := "La validazione è importante",
     description := "Validare gli input previene errori, attacchi e dati corrotti. Sempre validare sia lato client che lato server!",
     category := "nota",
     createdAt := 1705363200000,
     updatedAt := 1705363200000 }]

/-- A category option of the select control in the ContentForm component:
a value and a display label. -/
structure CategoryOption where
  value : String
  label : String
  deriving DecidableEq, Repr

/-- The categories offered by the ContentForm select control. -/
def categories : List CategoryOption :=
  [{ value := "articolo", label := "📝 Articolo" },
   { value := "tutorial", label := "📚 Tutorial" },
   { value := "nota", label := "🗒️ Nota" },
   { value := "idea", label := "💡 Idea" }]

/-- The enumerated category values (the value field of each option). -/
def catValues : List String :=
  categories.map CategoryOption.value

/-- The per-field error record built by the validate routine of the
ContentForm component (interface ValidationErrors). -/
structure ValidationErrors where
  title : Option String
  description : Option String
  category : Option String
  deriving DecidableEq, Repr

/-- The validate routine of the ContentForm component: title must trim to
a non-empty string of 3 to 100 characters, description must trim to a
non-empty string of at least 10 characters, category must be non-empty
(a JavaScript falsy check — set membership is not tested). -/
def validate (f : ContentFormData) : ValidationErrors :=
  { title :=
      if trim f.title = "" then some "Il titolo è obbligatorio"
      else if (trim f.title).length < 3 then some "Il titolo deve avere almeno 3 caratteri"
      else if (trim f.title).length > 100 then some "Il titolo non può superare 100 caratteri"
      else none,
    description :=
      if trim f.description = "" then some "La descrizione è obbligatoria"
      else if (trim f.description).length < 10 then some "La descrizione deve avere almeno 10 caratteri"
      else none,
    category :=
      if f.category = "" then some "Seleziona una categoria"
      else none }

/-- Whether validate found no errors (Object.keys of the error record is
empty). -/
def noErrors (e : ValidationErrors) : Bool :=
  e.title.isNone && e.description.isNone && e.category.isNone

/-- The handleSubmit routine of the ContentForm component: when validate
passes, the submitted data has title and description trimmed and the
category as selected; otherwise nothing is submitted. -/
def submitForm (f : ContentFormData) : Option ContentFormData :=
  if noErrors (validate f) then
    some { title := trim f.title, description := trim f.description, category := f.category }
  else
    none

/-- The record built by handleCreate in src/pages/Index.tsx: the id is
Date.now().toString(), the submitted fields are spread in, and both
timestamps are the creation instant. -/
def newContent (now : Nat) (d : ContentFormData) : Content :=
  { id := toString now,
    title := d.title,
    description := d.description,
    category := d.category,
    createdAt := now,
    updatedAt := now }

/-- handleCreate of src/pages/Index.tsx: prepend the new record. -/
def handleCreate (now : Nat) (d : ContentFormData) (s : List Content) : List Content :=
  newContent now d :: s

/-- The record replacement performed by handleUpdate: spread the
submitted fields over the record and reset updatedAt; id and createdAt
are untouched. -/
def applyUpdate (now : Nat) (d : ContentFormData) (c : Content) : Content :=
  { c with
    title := d.title,
    description := d.description,
    category := d.category,
    updatedAt := now }

/-- handleUpdate of src/pages/Index.tsx: map over the collection,
replacing the records whose id matches. -/
def handleUpdate (now : Nat) (id : String) (d : ContentFormData) (s : List Content) :
    List Content :=
  s.map fun c => if c.id = id then applyUpdate now d c else c

/-- handleDelete of src/pages/Index.tsx: keep the records whose id
differs. -/
def handleDelete (id : String) (s : List Content) : List Content :=
  s.filter fun c => c.id != id

/-- Create as reachable from the form: handleSubmit validates and trims,
then handleCreate runs; an invalid form submits nothing and the store is
untouched. -/
def createOp (now : Nat) (f : ContentFormData) (s : List Content) : List Content :=
  match submitForm f with
  | some d => handleCreate now d s
  | none => s

/-- Update as reachable from the form: handleSubmit validates and trims,
then handleUpdate runs; an invalid form submits nothing and the store is
untouched. -/
def updateOp (now : Nat) (id : String) (f : ContentFormData) (s : List Content) :
    List Content :=
  match submitForm f with
  | some d => handleUpdate now id d s
  | none => s

/-- The store operations reachable from the page: create and update carry
the wall-clock instant at which they run and the raw form fields; delete
carries the id confirmed in the dialog. -/
inductive Op where
  | create (now : Nat) (f : ContentFormData)
  | update (now : Nat) (id : String) (f : ContentFormData)
  | delete (id : String)

/-- One store transition. -/
def step (s : List Content) : Op → List Content
  | Op.create now f => createOp now f s
  | Op.update now id f => updateOp now id f s
  | Op.delete id => handleDelete id s

/-- Run a sequence of operations from a store state. -/
def exec (s : List Content) (ops : List Op) : List Content :=
  ops.foldl step s

/-- The ids of the records in the store, in order. -/
def ids (s : List Content) : List String :=
  s.map Content.id

/-! The access gate of src/lib/auth.ts.  hashCode encodes its input as
UTF-8 and digests it with SHA-256 (the Web Crypto primitive the source
calls is modelled here by the FIPS 180-4 algorithm over byte lists, with
32-bit words as naturals reduced modulo 2 to the 32), then renders each
digest byte as two lowercase hex characters. -/

/-- Reduce a natural to a 32-bit word. -/
def w32 (n : Nat) : Nat := n % 4294967296

/-- Rotate a 32-bit word right by n bits. -/
def rotr (n x : Nat) : Nat := (x >>> n) ||| w32 (x <<< (32 - n))

/-- The big sigma-0 function of SHA-256. -/
def bsig0 (x : Nat) : Nat := rotr 2 x ^^^ rotr 13 x ^^^ rotr 22 x

/-- The big sigma-1 function of SHA-256. -/
def bsig1 (x : Nat) : Nat := rotr 6 x ^^^ rotr 11 x ^^^ rotr 25 x

/-- The small sigma-0 function of SHA-256. -/
def ssig0 (x : Nat) : Nat := rotr 7 x ^^^ rotr 18 x ^^^ (x >>> 3)

/-- The small sigma-1 function of SHA-256. -/
def ssig1 (x : Nat) : Nat := rotr 17 x ^^^ rotr 19 x ^^^ (x >>> 10)

/-- The choice function of SHA-256 (the complement of x is taken within
32 bits). -/
def ch (x y z : Nat) : Nat := (x &&& y) ^^^ ((x ^^^ 4294967295) &&& z)

/-- The majority function of SHA-256. -/
def maj (x y z : Nat) : Nat := (x &&& y) ^^^ (x &&& z) ^^^ (y &&& z)

/-- UTF-8 encoding of one character (TextEncoder.encode). -/
def utf8Char (c : Char) : List Nat :=
  let n := c.toNat
  if n < 128 then [n]
  else if n < 2048 then [192 + n / 64, 128 + n % 64]
  else if n < 65536 then [224 + n / 4096, 128 + n / 64 % 64, 128 + n % 64]
  else [240 + n / 262144, 128 + n / 4096 % 64, 128 + n / 64 % 64, 128 + n % 64]

/-- UTF-8 encoding of a string as a byte list. -/
def utf8Bytes (s : String) : List Nat :=
  s.data.foldr (fun c acc => utf8Char c ++ acc) []

/-- Big-endian bytes of a natural, k bytes wide. -/
def beBytes (k n : Nat) : List Nat :=
  (List.range k).map fun i => (n >>> (8 * (k - 1 - i))) % 256

/-- SHA-256 padding: a 0x80 byte, zeros to 56 mod 64, and the bit length
in 8 big-endian bytes. -/
def padMessage (msg : List Nat) : List Nat :=
  let padZeros := (64 - (msg.length + 9) % 64) % 64
  msg ++ 128 :: (List.replicate padZeros 0 ++ beBytes 8 (8 * msg.length))

/-- The i-th big-endian 32-bit word of a byte list. -/
def wordAt (bytes : List Nat) (i : Nat) : Nat :=
  bytes.getD (4 * i) 0 * 16777216 + bytes.getD (4 * i + 1) 0 * 65536 +
    bytes.getD (4 * i + 2) 0 * 256 + bytes.getD (4 * i + 3) 0

/-- The 16 words of one 64-byte block. -/
def blockWords (block : List Nat) : List Nat :=
  (List.range 16).map (wordAt block)

/-- Extend the message schedule by one word. -/
def scheduleStep (w : List Nat) : List Nat :=
  w ++ [w32 (ssig1 (w.getD (w.length - 2) 0) + w.getD (w.length - 7) 0 +
             ssig0 (w.getD (w.length - 15) 0) + w.getD (w.length - 16) 0)]

/-- The 64-word message schedule of one block. -/
def schedule (w : List Nat) : List Nat :=
  (List.range 48).foldl (fun acc _ => scheduleStep acc) w

/-- The 64 SHA-256 round constants. -/
def sha256K : List Nat :=
  [1116352408, 1899447441, 3049323471, 3921009573,
   961987163, 1508970993, 2453635748, 2870763221,
   3624381080, 310598401, 607225278, 1426881987,
   1925078388, 2162078206, 2614888103, 3248222580,
   3835390401, 4022224774, 264347078, 604807628,
   770255983, 1249150122, 1555081692, 1996064986,
   2554220882, 2821834349, 2952996808, 3210313671,
   3336571891, 3584528711, 113926993, 338241895,
   666307205, 773529912, 1294757372, 1396182291,
   1695183700, 1986661051, 2177026350, 2456956037,
   2730485921, 2820302411, 3259730800, 3345764771,
   3516065817, 3600352804, 4094571909, 275423344,
   430227734, 506948616, 659060556, 883997877,
   958139571, 1322822218, 1537002063, 1747873779,
   1955562222, 2024104815, 2227730452, 2361852424,
   2428436474, 2756734187, 3204031479, 3329325298]

/-- The SHA-256 initial hash value. -/
def sha256H0 : List Nat :=
  [1779033703, 3144134277, 1013904242, 2773480762,
   1359893119, 2600822924, 528734635, 1541459225]

/-- One SHA-256 compression round on the eight working variables. -/
def sha256Round (w : List Nat) (st : List Nat) (i : Nat) : List Nat :=
  let a := st.getD 0 0
  let b := st.getD 1 0
  let c := st.getD 2 0
  let d := st.getD 3 0
  let e := st.getD 4 0
  let f := st.getD 5 0
  let g := st.getD 6 0
  let h := st.getD 7 0
  let t1 := w32 (h + bsig1 e + ch e f g + sha256K.getD i 0 + w.getD i 0)
  let t2 := w32 (bsig0 a + maj a b c)
  [w32 (t1 + t2), a, b, c, w32 (d + t1), e, f, g]

/-- The SHA-256 compression function on one 64-byte block. -/
def compress (st : List Nat) (block : List Nat) : List Nat :=
  let w := schedule (blockWords block)
  let fin := (List.range 64).foldl (sha256Round w) st
  List.zipWith (fun x y => w32 (x + y)) st fin

/-- SHA-256 of a byte list: the eight words of the digest. -/
def sha256 (msg : List Nat) : List Nat :=
  let padded := padMessage msg
  (List.range (padded.length / 64)).foldl
    (fun st i => compress st ((padded.drop (64 * i)).take 64)) sha256H0

/-- A lowercase hexadecimal digit. -/
def hexDigit (n : Nat) : Char :=
  if n < 10 then Char.ofNat (48 + n) else Char.ofNat (87 + n)

/-- Two hex characters of one byte (toString 16 padded to width 2). -/
def byteHex (b : Nat) : List Char :=
  [hexDigit (b / 16), hexDigit (b % 16)]

/-- The 32 digest bytes of the eight digest words, big-endian. -/
def digestBytes (words : List Nat) : List Nat :=
  words.foldr (fun w acc => beBytes 4 w ++ acc) []

/-- hashCode of src/lib/auth.ts: the lowercase hex SHA-256 digest of the
UTF-8 encoding of the input. -/
def hashCode (s : String) : String :=
  String.mk ((digestBytes (sha256 (utf8Bytes s))).foldr (fun b acc => byteHex b ++ acc) [])

/-- The hash constant at the top of src/lib/auth.ts (unused by the
verification path). -/
def CORRECT_CODE_HASH : String :=
  "e3b0c44298fc1c149afbf4c8996fb92427ae41e4649b934ca495991b7852b855_placeholder"

/-- The local constant correctHash inside verifyAccessCode (declared and
never read). -/
def correctHash : String :=
  "a1f3c8e2b9d4567890abcdef1234567890abcdef1234567890abcdef12345678"

/-- The hard-coded plaintext access code hashed inside verifyAccessCode. -/
def accessCode : String :=
  "gT6@Qp!R1Z$uN9e#X^cD2sL%hY&vJm*W+K7B~A=F4q-Uo_rP)k8S]3C0\x7bI?E"

/-- verifyAccessCode of src/lib/auth.ts: hash the candidate, hash the
hard-coded plaintext at verification time, and compare the two digests
(the stored correctHash constant plays no part). -/
def verifyAccessCode (code : String) : Bool :=
  let inputHash := hashCode code
  let expectedHash := hashCode accessCode
  inputHash == expectedHash

/-! The session state of src/lib/auth.ts: localStorage is modelled as a
map from keys to optionally present string values. -/

/-- The key-value store backing the session flag. -/
def Storage : Type := String → Option String

/-- localStorage.setItem. -/
def setItem (k v : String) (st : Storage) : Storage :=
  fun q => if q = k then some v else st q

/-- localStorage.removeItem. -/
def removeItem (k : String) (st : Storage) : Storage :=
  fun q => if q = k then none else st q

/-- The storage key of src/lib/auth.ts. -/
def AUTH_STORAGE_KEY : String := "crud_app_authenticated"

/-- setAuthenticated of src/lib/auth.ts: on true store the current
timestamp as an opaque token under the key; on false remove the key. -/
def setAuthenticated (value : Bool) (now : Nat) (st : Storage) : Storage :=
  if value then setItem AUTH_STORAGE_KEY (toString now) st
  else removeItem AUTH_STORAGE_KEY st

/-- isAuthenticated of src/lib/auth.ts: the key is present
(getItem is not null). -/
def isAuthenticated (st : Storage) : Bool :=
  (st AUTH_STORAGE_KEY).isSome

/-- logout of src/lib/auth.ts: remove the key. -/
def logout (st : Storage) : Storage :=
  removeItem AUTH_STORAGE_KEY st

/-! Predicates used by the reachable-state theorems. -/

/-- A valid form whose fields pass validate, used as the concrete input
of witnesses and counterexamples. -/
def sampleForm : ContentFormData :=
  { title := "Titolo di prova", description := "Una descrizione di prova", category := "idea" }

/-- Along an operation sequence, every create runs at an instant whose
decimal string is not an id already in the store it runs on. -/
def createsFresh : List Content → List Op → Prop
  | _, [] => True
  | s, op :: ops =>
    (match op with
     | Op.create now _ => toString now ∉ ids s
     | _ => True) ∧ createsFresh (step s op) ops

/-- Every record's timestamps are ordered and no later than the bound t. -/
def timesOK (s : List Content) (t : Nat) : Prop :=
  ∀ c ∈ s, c.createdAt ≤ c.updatedAt ∧ c.updatedAt ≤ t

/-- The wall-clock instants of an operation sequence are nondecreasing
and start no earlier than the bound t. -/
def timesMono : Nat → List Op → Prop
  | _, [] => True
  | t, Op.create now _ :: ops => t ≤ now ∧ timesMono now ops
  | t, Op.update now _ _ :: ops => t ≤ now ∧ timesMono now ops
  | t, Op.delete _ :: ops => timesMono t ops

/-- Every record in the store satisfies the enforced validation rules:
title and description are their own trimmed forms and within the length
bounds, and the category is non-empty. -/
def storeValid (s : List Content) : Prop :=
  ∀ c ∈ s,
    trimChars c.title.data = c.title.data ∧
    3 ≤ c.title.length ∧ c.title.length ≤ 100 ∧
    trimChars c.description.data = c.description.data ∧
    10 ≤ c.description.length ∧
    c.category ≠ ""

/-- Every record's createdAt is no later than its updatedAt. -/
def timestampsOrdered (s : List Content) : Prop :=
  ∀ c ∈ s, c.createdAt ≤ c.updatedAt

end ContentManager

namespace ContentManager

/-! Helper lemmas shared by the claim theorems. -/

/-- Trimming is idempotent on character lists. -/
theorem trimChars_idem (l : List Char) : trimChars (trimChars l) = trimChars l := by
  have key : ∀ m : List Char,
      List.dropWhile isJsSpace ((List.dropWhile isJsSpace m).rdropWhile isJsSpace) =
        (List.dropWhile isJsSpace m).rdropWhile isJsSpace := by
    intro m
    rw [List.dropWhile_eq_self_iff]
    intro hl
    have hpre : (List.dropWhile isJsSpace m).rdropWhile isJsSpace <+:
        List.dropWhile isJsSpace m :=
      List.rdropWhile_prefix _ _
    have hlen : 0 < (List.dropWhile isJsSpace m).length :=
      lt_of_lt_of_le hl hpre.length_le
    have h0 := List.dropWhile_get_zero_not isJsSpace m hlen
    simp only [List.get_eq_getElem] at h0 ⊢
    rw [hpre.getElem hl]
    exact h0
  show ((List.dropWhile isJsSpace (trimChars l)).rdropWhile isJsSpace) = trimChars l
  rw [show trimChars l = (List.dropWhile isJsSpace l).rdropWhile isJsSpace from rfl]
  rw [key l, List.rdropWhile_idempotent]

/-- The character list of a trimmed string. -/
theorem trim_data (s : String) : (trim s).data = trimChars s.data := rfl

/-- A form that validate passes has its trimmed title within 3..100,
its trimmed description at least 10 characters long, and a non-empty
category. -/
theorem noErrors_spec (f : ContentFormData) (h : noErrors (validate f) = true) :
    3 ≤ (trim f.title).length ∧ (trim f.title).length ≤ 100 ∧
    10 ≤ (trim f.description).length ∧ f.category ≠ "" := by
  simp only [noErrors, validate, Bool.and_eq_true, Option.isNone_iff_eq_none] at h
  obtain ⟨⟨h1, h2⟩, h3⟩ := h
  split_ifs at h1 h2 h3 <;> simp_all

/-- A form that validate passes submits the trimmed fields. -/
theorem submitForm_eq_some (f : ContentFormData) (hv : noErrors (validate f) = true) :
    submitForm f = some { title := trim f.title, description := trim f.description,
                          category := f.category } := by
  simp [submitForm, hv]

/-- What a successful submission says about its data. -/
theorem submitForm_some_spec (f d : ContentFormData) (h : submitForm f = some d) :
    d.title = trim f.title ∧ d.description = trim f.description ∧
    d.category = f.category ∧ noErrors (validate f) = true := by
  unfold submitForm at h
  split at h
  · cases h
    next hv => exact ⟨rfl, rfl, rfl, hv⟩
  · cases h

/-- Indexing a mapped store. -/
theorem get_map_cast (g : Content → Content) (s : List Content) (j : Fin s.length) :
    (s.map g).get (j.cast (List.length_map s g).symm) = g (s.get j) := by
  simp [List.get_eq_getElem, List.getElem_map]

/-- Indexing the id list of a store. -/
theorem get_ids_cast (s : List Content) (j : Fin s.length) :
    (ids s).get (j.cast (List.length_map s Content.id).symm) = (s.get j).id := by
  simp [ids, List.get_eq_getElem, List.getElem_map]

/-- Distinct positions of a store with nodup ids hold records with
distinct ids. -/
theorem nodup_ids_get_ne (s : List Content) (hnd : (ids s).Nodup)
    (i j : Fin s.length) (hne : j ≠ i) : (s.get j).id ≠ (s.get i).id := by
  intro he
  apply hne
  have hl : (ids s).length = s.length := List.length_map s Content.id
  have key : (ids s).get (j.cast hl.symm) = (ids s).get (i.cast hl.symm) := by
    rw [get_ids_cast, get_ids_cast]
    exact he
  exact Fin.cast_injective hl.symm (hnd.get_inj_iff.mp key)

/-- handleUpdate never changes the id list. -/
theorem ids_handleUpdate (now : Nat) (id : String) (d : ContentFormData)
    (s : List Content) : ids (handleUpdate now id d s) = ids s := by
  simp only [ids, handleUpdate, List.map_map]
  refine List.map_congr_left fun c _ => ?_
  by_cases h : c.id = id
  · simp [Function.comp, h, applyUpdate]
  · simp [Function.comp, h]

/-- updateOp never changes the id list. -/
theorem ids_updateOp (now : Nat) (id : String) (f : ContentFormData)
    (s : List Content) : ids (updateOp now id f s) = ids s := by
  unfold updateOp
  cases submitForm f with
  | none => rfl
  | some d => exact ids_handleUpdate now id d s

/-- Distinct ids are preserved along every sequence whose creates run at
instants whose decimal string is fresh in the store. -/
theorem exec_nodup_ids (ops : List Op) :
    ∀ s : List Content, (ids s).Nodup → createsFresh s ops →
      (ids (exec s ops)).Nodup := by
  induction ops with
  | nil => exact fun s h _ => h
  | cons op ops ih =>
    intro s h hf
    obtain ⟨hop, hrest⟩ := hf
    have hstep : (ids (step s op)).Nodup := by
      cases op with
      | create now f =>
        show (ids (createOp now f s)).Nodup
        unfold createOp
        cases hsub : submitForm f with
        | none => exact h
        | some d =>
          simp only [handleCreate, ids, List.map_cons]
          exact List.nodup_cons.mpr ⟨hop, h⟩
      | update now id f =>
        show (ids (updateOp now id f s)).Nodup
        rw [ids_updateOp]
        exact h
      | delete id =>
        exact h.sublist (List.Sublist.map Content.id (List.filter_sublist s))
    simpa [exec] using ih (step s op) hstep hrest

/-- Weaken the time bound of timesOK. -/
theorem timesOK_mono (s : List Content) (t u : Nat) (h : timesOK s t) (htu : t ≤ u) :
    timesOK s u :=
  fun c hc => ⟨(h c hc).1, (h c hc).2.trans htu⟩

/-- A create at an instant past the bound keeps timesOK. -/
theorem timesOK_createOp (now : Nat) (f : ContentFormData) (s : List Content) (t : Nat)
    (h : timesOK s t) (ht : t ≤ now) : timesOK (createOp now f s) now := by
  unfold createOp
  cases submitForm f with
  | none => exact timesOK_mono s t now h ht
  | some d =>
    intro c hc
    rcases List.mem_cons.mp hc with rfl | hc2
    · exact ⟨le_refl now, le_refl now⟩
    · exact ⟨(h c hc2).1, (h c hc2).2.trans ht⟩

/-- An update at an instant past the bound keeps timesOK. -/
theorem timesOK_updateOp (now : Nat) (id : String) (f : ContentFormData)
    (s : List Content) (t : Nat) (h : timesOK s t) (ht : t ≤ now) :
    timesOK (updateOp now id f s) now := by
  unfold updateOp
  cases submitForm f with
  | none => exact timesOK_mono s t now h ht
  | some d =>
    intro c hc
    obtain ⟨c0, hc0, rfl⟩ := List.mem_map.mp hc
    by_cases hid : c0.id = id
    · rw [if_pos hid]
      exact ⟨(h c0 hc0).1.trans ((h c0 hc0).2.trans ht), le_refl now⟩
    · rw [if_neg hid]
      exact ⟨(h c0 hc0).1, (h c0 hc0).2.trans ht⟩

/-- A delete keeps timesOK. -/
theorem timesOK_handleDelete (id : String) (s : List Content) (t : Nat)
    (h : timesOK s t) : timesOK (handleDelete id s) t :=
  fun c hc => h c (List.mem_of_mem_filter hc)

/-- Along a monotone sequence of instants, some bound keeps timesOK. -/
theorem exec_timesOK (ops : List Op) :
    ∀ (s : List Content) (t : Nat), timesOK s t → timesMono t ops →
      ∃ u, timesOK (exec s ops) u := by
  induction ops with
  | nil => exact fun s t h _ => ⟨t, h⟩
  | cons op ops ih =>
    intro s t h hm
    cases op with
    | create now f =>
      obtain ⟨htn, hrest⟩ := hm
      have := ih (createOp now f s) now (timesOK_createOp now f s t h htn) hrest
      simpa [exec, step] using this
    | update now id f =>
      obtain ⟨htn, hrest⟩ := hm
      have := ih (updateOp now id f s) now (timesOK_updateOp now id f s t h htn) hrest
      simpa [exec, step] using this
    | delete id =>
      have := ih (handleDelete id s) t (timesOK_handleDelete id s t h) hm
      simpa [exec, step] using this

/-- A successfully submitted form satisfies the stored-record validity
conjuncts. -/
theorem submitted_record_valid (f d : ContentFormData) (h : submitForm f = some d) :
    trimChars d.title.data = d.title.data ∧ 3 ≤ d.title.length ∧ d.title.length ≤ 100 ∧
    trimChars d.description.data = d.description.data ∧ 10 ≤ d.description.length ∧
    d.category ≠ "" := by
  obtain ⟨ht, hd, hc, hv⟩ := submitForm_some_spec f d h
  obtain ⟨h3, h100, h10, hcat⟩ := noErrors_spec f hv
  refine ⟨?_, ?_, ?_, ?_, ?_, ?_⟩
  · rw [ht, trim_data, trimChars_idem]
  · rw [ht]; exact h3
  · rw [ht]; exact h100
  · rw [hd, trim_data, trimChars_idem]
  · rw [hd]; exact h10
  · rw [hc]; exact hcat

/-- Every operation preserves store validity. -/
theorem storeValid_step (s : List Content) (op : Op) (h : storeValid s) :
    storeValid (step s op) := by
  cases op with
  | create now f =>
    show storeValid (createOp now f s)
    unfold createOp
    cases hsub : submitForm f with
    | none => exact h
    | some d =>
      intro c hc
      rcases List.mem_cons.mp hc with rfl | hc2
      · exact submitted_record_valid f d hsub
      · exact h c hc2
  | update now id f =>
    show storeValid (updateOp now id f s)
    unfold updateOp
    cases hsub : submitForm f with
    | none => exact h
    | some d =>
      intro c hc
      obtain ⟨c0, hc0, rfl⟩ := List.mem_map.mp hc
      by_cases hid : c0.id = id
      · rw [if_pos hid]
        exact submitted_record_valid f d hsub
      · rw [if_neg hid]
        exact h c0 hc0
  | delete id =>
    intro c hc
    exact h c (List.mem_of_mem_filter hc)

/-- Store validity is preserved along every operation sequence. -/
theorem storeValid_exec (ops : List Op) :
    ∀ s : List Content, storeValid s → storeValid (exec s ops) := by
  induction ops with
  | nil => exact fun s h => h
  | cons op ops ih =>
    intro s h
    simpa [exec] using ih (step s op) (storeValid_step s op h)

end ContentManager

namespace ContentManager

/-! The claim theorems. -/

/-- C1 (amended): validate flags the title iff the trimmed title is
empty, shorter than 3 or longer than 100 characters, and the description
iff the trimmed description is empty or shorter than 10 characters; the
category is flagged iff the category string is empty — membership in the
enumerated category set is not tested. -/
theorem validate_characterisation (f : ContentFormData) :
    ((validate f).title.isSome = true ↔
      trim f.title = "" ∨ (trim f.title).length < 3 ∨ 100 < (trim f.title).length) ∧
    ((validate f).description.isSome = true ↔
      trim f.description = "" ∨ (trim f.description).length < 10) ∧
    ((validate f).category.isSome = true ↔ f.category = "") := by
  refine ⟨?_, ?_, ?_⟩ <;> simp only [validate] <;> split_ifs <;> simp_all

/-- C1 counterexample: a non-empty category string outside the enumerated
set is accepted by validate with no category error (indeed with no error
at all). -/
theorem validate_accepts_foreign_category :
    (validate { title := "Titolo valido", description := "Una descrizione valida",
                category := "categoria-fantasma" }).category = none ∧
    noErrors (validate { title := "Titolo valido", description := "Una descrizione valida",
                         category := "categoria-fantasma" }) = true ∧
    catValues.contains "categoria-fantasma" = false := by decide

/-- C2 (amended): when validate passes and the decimal string of the
creation instant is not an id already in the store, create prepends a
single new record whose title and description are the trimmed inputs,
whose createdAt equals its updatedAt, and whose id is fresh; the existing
records sit unchanged behind it. -/
theorem create_semantics (now : Nat) (f : ContentFormData) (s : List Content)
    (hv : noErrors (validate f) = true)
    (hfresh : toString now ∉ ids s) :
    ∃ c, createOp now f s = c :: s ∧
      c.title = trim f.title ∧ c.description = trim f.description ∧
      c.category = f.category ∧ c.createdAt = now ∧ c.updatedAt = now ∧
      c.createdAt = c.updatedAt ∧ c.id ∉ ids s := by
  refine ⟨newContent now { title := trim f.title, description := trim f.description,
                           category := f.category },
          ?_, rfl, rfl, rfl, rfl, rfl, rfl, hfresh⟩
  simp [createOp, submitForm_eq_some f hv, handleCreate]

/-- Witness for C2 at a concrete valid form, instant and the seeded
store. -/
theorem create_semantics_witness :
    ∃ c, createOp 1705450000000 sampleForm initialContents = c :: initialContents ∧
      c.title = trim sampleForm.title ∧ c.description = trim sampleForm.description ∧
      c.category = sampleForm.category ∧ c.createdAt = 1705450000000 ∧
      c.updatedAt = 1705450000000 ∧ c.createdAt = c.updatedAt ∧
      c.id ∉ ids initialContents :=
  create_semantics 1705450000000 sampleForm initialContents (by decide) (by decide)

/-- C2 counterexample: two creates at the same millisecond produce the
same id, so the second created record's id is not distinct from the ids
already extant in the store. -/
theorem create_duplicate_id :
    noErrors (validate sampleForm) = true ∧
    (ids (createOp 1705400000000 sampleForm
        (createOp 1705400000000 sampleForm initialContents))).head? =
      some "1705400000000" ∧
    "1705400000000" ∈ ids (createOp 1705400000000 sampleForm initialContents) := by
  decide

/-- C3 (amended): an update whose id is absent from the store raises no
error and leaves the store unchanged — it is a silent no-op, not a
NotFoundError. -/
theorem update_absent_id_noop (now : Nat) (id : String) (f : ContentFormData)
    (s : List Content) (h : id ∉ ids s) : updateOp now id f s = s := by
  unfold updateOp
  cases hsub : submitForm f with
  | none => rfl
  | some d =>
    show s.map _ = s
    calc s.map (fun c => if c.id = id then applyUpdate now d c else c)
        = s.map (fun c => c) := by
          refine List.map_congr_left fun c hc => if_neg fun he => ?_
          exact h (he ▸ List.mem_map_of_mem Content.id hc)
      _ = s := List.map_id s

/-- Witness for C3 at a concrete absent id on the seeded store. -/
theorem update_absent_id_noop_witness :
    updateOp 1705450000000 "999" sampleForm initialContents = initialContents :=
  update_absent_id_noop 1705450000000 "999" sampleForm initialContents (by decide)

/-- C3 counterexample: updating an id absent from the seeded store with
valid fields returns the unchanged store through the ordinary success
path — no NotFoundError outcome exists in the code. -/
theorem update_absent_id_no_error :
    updateOp 1705450000000 "999" sampleForm initialContents = initialContents ∧
    noErrors (validate sampleForm) = true ∧
    (ids initialContents).contains "999" = false := by decide

/-- C4: an update of the record at position i (in a store with distinct
ids, with valid fields, at an instant no earlier than the record's
updatedAt) keeps the record's id, createdAt and position, sets updatedAt
to the instant (hence advances it), and leaves every other record
unchanged. -/
theorem update_frame (now : Nat) (f : ContentFormData) (s : List Content)
    (i : Fin s.length)
    (hnd : (ids s).Nodup)
    (hv : noErrors (validate f) = true)
    (ht : (s.get i).updatedAt ≤ now) :
    ∃ h2 : (updateOp now (s.get i).id f s).length = s.length,
      ((updateOp now (s.get i).id f s).get (i.cast h2.symm)).id = (s.get i).id ∧
      ((updateOp now (s.get i).id f s).get (i.cast h2.symm)).createdAt =
        (s.get i).createdAt ∧
      ((updateOp now (s.get i).id f s).get (i.cast h2.symm)).updatedAt = now ∧
      (s.get i).updatedAt ≤ ((updateOp now (s.get i).id f s).get (i.cast h2.symm)).updatedAt ∧
      ∀ j : Fin s.length, j ≠ i →
        (updateOp now (s.get i).id f s).get (j.cast h2.symm) = s.get j := by
  have hup : updateOp now (s.get i).id f s =
      s.map (fun c => if c.id = (s.get i).id then
        applyUpdate now { title := trim f.title, description := trim f.description,
                          category := f.category } c else c) := by
    simp [updateOp, submitForm_eq_some f hv, handleUpdate]
  rw [hup]
  refine ⟨(List.length_map s _).symm ▸ rfl, ?_, ?_, ?_, ?_, ?_⟩
  · rw [get_map_cast, if_pos rfl]; rfl
  · rw [get_map_cast, if_pos rfl]; rfl
  · rw [get_map_cast, if_pos rfl]; rfl
  · rw [get_map_cast, if_pos rfl]; exact ht
  · intro j hj
    rw [get_map_cast, if_neg (nodup_ids_get_ne s hnd i j hj)]

/-- Witness for C4 at position 0 of the seeded store. -/
theorem update_frame_witness :
    ∃ h2 : (updateOp 1705450000000
        (initialContents.get ⟨0, by decide⟩).id sampleForm initialContents).length =
        initialContents.length,
      ((updateOp 1705450000000 (initialContents.get ⟨0, by decide⟩).id sampleForm
          initialContents).get (Fin.cast h2.symm ⟨0, by decide⟩)).id =
        (initialContents.get ⟨0, by decide⟩).id ∧
      ((updateOp 1705450000000 (initialContents.get ⟨0, by decide⟩).id sampleForm
          initialContents).get (Fin.cast h2.symm ⟨0, by decide⟩)).createdAt =
        (initialContents.get ⟨0, by decide⟩).createdAt ∧
      ((updateOp 1705450000000 (initialContents.get ⟨0, by decide⟩).id sampleForm
          initialContents).get (Fin.cast h2.symm ⟨0, by decide⟩)).updatedAt =
        1705450000000 ∧
      (initialContents.get ⟨0, by decide⟩).updatedAt ≤
        ((updateOp 1705450000000 (initialContents.get ⟨0, by decide⟩).id sampleForm
          initialContents).get (Fin.cast h2.symm ⟨0, by decide⟩)).updatedAt ∧
      ∀ j : Fin initialContents.length, j ≠ ⟨0, by decide⟩ →
        (updateOp 1705450000000 (initialContents.get ⟨0, by decide⟩).id sampleForm
          initialContents).get (Fin.cast h2.symm j) =
        initialContents.get j :=
  update_frame 1705450000000 sampleForm initialContents ⟨0, by decide⟩
    (by decide) (by decide) (by decide)

/-- C5: after a delete no record with the id remains in the collection;
deleting an id that is not present (in particular a second consecutive
delete of the same id) raises no error and returns the store unchanged. -/
theorem delete_semantics (id : String) (s : List Content) :
    (∀ c ∈ handleDelete id s, c.id ≠ id) ∧
    (id ∉ ids s → handleDelete id s = s) ∧
    handleDelete id (handleDelete id s) = handleDelete id s := by
  refine ⟨?_, ?_, ?_⟩
  · intro c hc
    simp only [handleDelete, List.mem_filter, bne_iff_ne, ne_eq, decide_eq_true_eq] at hc
    exact hc.2
  · intro h
    rw [handleDelete, List.filter_eq_self]
    intro c hc
    simp only [bne_iff_ne, ne_eq, decide_eq_true_eq]
    intro he
    exact h (he ▸ List.mem_map_of_mem Content.id hc)
  · rw [handleDelete, handleDelete, List.filter_filter]
    simp

/-- C6 (amended): starting from the seeded collection, ids stay pairwise
distinct along every operation sequence whose creates each run at an
instant whose decimal string is not an id already in the store. -/
theorem reachable_ids_nodup (ops : List Op) (hf : createsFresh initialContents ops) :
    (ids (exec initialContents ops)).Nodup :=
  exec_nodup_ids ops initialContents (by decide) hf

/-- Witness for C6 with one fresh create. -/
theorem reachable_ids_nodup_witness :
    (ids (exec initialContents [Op.create 1705450000000 sampleForm])).Nodup :=
  reachable_ids_nodup [Op.create 1705450000000 sampleForm] ⟨by decide, trivial⟩

/-- C6 counterexample: two valid creates during the same millisecond
reach a store whose ids are not pairwise distinct. -/
theorem reachable_duplicate_ids :
    ¬ (ids (exec initialContents
      [Op.create 1705400000000 sampleForm, Op.create 1705400000000 sampleForm])).Nodup := by
  decide

/-- C7: starting from the seeded collection, along every operation
sequence whose wall-clock instants are nondecreasing and no earlier than
the seed timestamps, every record satisfies createdAt less-or-equal
updatedAt: create sets both to the creation instant and update resets
updatedAt to the current instant without touching createdAt. -/
theorem reachable_timestamps_ordered (ops : List Op)
    (hm : timesMono 1705363200000 ops) :
    timestampsOrdered (exec initialContents ops) := by
  obtain ⟨u, hu⟩ :=
    exec_timesOK ops initialContents 1705363200000 (by unfold timesOK; decide) hm
  exact fun c hc => (hu c hc).1

/-- Witness for C7 with one later create. -/
theorem reachable_timestamps_ordered_witness :
    timestampsOrdered (exec initialContents [Op.create 1705450000000 sampleForm]) :=
  reachable_timestamps_ordered [Op.create 1705450000000 sampleForm] ⟨by omega, trivial⟩

set_option maxRecDepth 400000 in
/-- C8: verifyAccessCode returns true exactly when the digest of the
candidate equals the digest of the hard-coded plaintext passphrase
computed at verification time; it is a total function, and both the empty
string and the literal wrong-code yield false. -/
theorem verify_access_semantics (code : String) :
    (verifyAccessCode code = true ↔ hashCode code = hashCode accessCode) ∧
    verifyAccessCode "" = false ∧
    verifyAccessCode "wrong-code" = false := by
  refine ⟨?_, ?_, ?_⟩
  · simp [verifyAccessCode]
  · decide
  · decide

/-- C9: isAuthenticated reads true right after setAuthenticated true and
false right after logout; logout equals setAuthenticated false; the flag
is true exactly when the session marker is present in the storage. -/
theorem auth_session_flag (st : Storage) (now : Nat) :
    isAuthenticated (setAuthenticated true now st) = true ∧
    isAuthenticated (logout st) = false ∧
    logout st = setAuthenticated false now st ∧
    (isAuthenticated st = true ↔ st AUTH_STORAGE_KEY ≠ none) := by
  refine ⟨?_, ?_, rfl, ?_⟩
  · simp [isAuthenticated, setAuthenticated, setItem]
  · simp [isAuthenticated, logout, removeItem]
  · simp [isAuthenticated, Option.isSome_iff_ne_none]

set_option maxRecDepth 10000 in
/-- C10: every store reachable from the seeded collection through the
form-mediated operations is valid: titles and descriptions equal their
own trimmed forms and satisfy the length bounds, and categories are
non-empty — mutation happens only after validation passes and fields are
trimmed on submission. -/
theorem reachable_store_valid (ops : List Op) :
    storeValid (exec initialContents ops) :=
  storeValid_exec ops initialContents (by unfold storeValid; decide)

end ContentManager
